import Mathlib

/-!
Verification of the binding core of the `bound` repository
(`src/bound/base.ts` and `src/bound/simple.ts`).

The TypeScript code is shallowly embedded: JavaScript values are an inductive
type `JSVal` (object references are indices into an explicit `Heap`),
JavaScript property tables carry the `writable`/`enumerable` attributes that
`Object.defineProperty` manipulates, and every operation that can throw
returns `Except JSErr`.  The `Binding` class (`src/binding`) is not part of
the two source files, so its two operations are modelled from the spec and
marked as such.  Everything else is translated line by line from the source.
-/

/-- A JavaScript runtime error, as surfaced to the caller.  `boundError`
corresponds to the repository's `BoundError` class; the other constructors
are the built-in JavaScript error kinds that the embedded code can raise. -/
inductive JSErr where
  | boundError (msg : String)
  | typeError (msg : String)
  | syntaxError (msg : String)
  | rangeError (msg : String)
deriving Repr, DecidableEq

/-- A JavaScript value.  Objects are references (indices) into a `Heap`. -/
inductive JSVal where
  | undefined
  | null
  | bool (b : Bool)
  | num (n : Int)
  | str (s : String)
  | ref (r : Nat)
deriving Repr, DecidableEq

/-- A property of a JavaScript object: its value plus the two attribute bits
that the embedded code manipulates (`Object.defineProperty` with a
`value`/`writable` descriptor). -/
structure JSProp where
  value : JSVal
  writable : Bool
  enumerable : Bool
deriving Repr, DecidableEq

/-- A JavaScript object: an ordered property table, plus a tag recording
whether the object is an instance of the `BaseBound` class (used to evaluate
`instanceof BaseBound`). -/
structure JSObj where
  props : List (String × JSProp)
  isBaseBound : Bool
deriving Repr, DecidableEq

/-- The JavaScript heap: object reference `r` denotes the `r`-th entry.
Allocation appends to the end. -/
abbrev Heap := List JSObj

/-- Look up a property in a property table. -/
def lookupProp : List (String × JSProp) → String → Option JSProp
  | [], _ => none
  | (k0, p) :: rest, k => if k0 = k then some p else lookupProp rest k

/-- The value stored at a key of a property table, if present. -/
def propsValue (ps : List (String × JSProp)) (k : String) : Option JSVal :=
  match lookupProp ps k with
  | some p => some p.value
  | none => none

/-- Plain property read on a value that is known not to be nullish:
a reference reads its object's table (missing keys give `undefined`), and
property access on a boxed primitive yields `undefined` here. -/
def rawPropGet (h : Heap) (v : JSVal) (k : String) : JSVal :=
  match v with
  | .ref r =>
    match h[r]? with
    | some o =>
      match lookupProp o.props k with
      | some p => p.value
      | none => .undefined
    | none => .undefined
  | _ => .undefined

/-- JavaScript property read `t[k]`, throwing a TypeError on `undefined` and
`null` exactly as the runtime does. -/
def heapGet (h : Heap) (t : JSVal) (k : String) : Except JSErr JSVal :=
  match t with
  | .undefined => .error (.typeError ("Cannot read properties of undefined (reading " ++ k ++ ")"))
  | .null => .error (.typeError ("Cannot read properties of null (reading " ++ k ++ ")"))
  | v => .ok (rawPropGet h v k)

/-- Plain assignment `o[k] := v` on a property table ([[Set]] on a data
property): an existing writable property keeps its attributes and gets the
new value; a missing property is created writable and enumerable; assigning
to a read-only property fails (strict-mode TypeError), signalled by `none`. -/
def setProps : List (String × JSProp) → String → JSVal → Option (List (String × JSProp))
  | [], k, v => some [(k, { value := v, writable := true, enumerable := true })]
  | (k0, p) :: rest, k, v =>
    if k0 = k then
      if p.writable then some ((k0, { p with value := v }) :: rest) else none
    else
      match setProps rest k v with
      | some rest' => some ((k0, p) :: rest')
      | none => none

/-- JavaScript property write `t[k] = v` (strict mode, as in a TS class
body): throws a TypeError when the target is nullish, a primitive, or the
property is read-only. -/
def heapSet (h : Heap) (t : JSVal) (k : String) (v : JSVal) : Except JSErr Heap :=
  match t with
  | .ref r =>
    match h[r]? with
    | some o =>
      match setProps o.props k v with
      | some ps => .ok (h.set r { o with props := ps })
      | none => .error (.typeError ("Cannot assign to read only property " ++ k))
    | none => .error (.typeError "invalid object reference")
  | .undefined => .error (.typeError ("Cannot set properties of undefined (setting " ++ k ++ ")"))
  | .null => .error (.typeError ("Cannot set properties of null (setting " ++ k ++ ")"))
  | _ => .error (.typeError ("Cannot create property " ++ k ++ " on a primitive"))

/-- `Object.defineProperty` restricted to the descriptor shape used at
`base.ts:55-58`, namely `{ value, writable }`: redefining an existing
property changes only `value` and `writable` and leaves `enumerable` in its
current state; creating a missing property defaults `enumerable` to false. -/
def definePropsVW : List (String × JSProp) → String → JSVal → Bool → List (String × JSProp)
  | [], k, v, w => [(k, { value := v, writable := w, enumerable := false })]
  | (k0, p) :: rest, k, v, w =>
    if k0 = k then (k0, { value := v, writable := w, enumerable := p.enumerable }) :: rest
    else (k0, p) :: definePropsVW rest k v w

/-- JavaScript `typeof`. -/
def jsTypeof : JSVal → String
  | .undefined => "undefined"
  | .null => "object"
  | .bool _ => "boolean"
  | .num _ => "number"
  | .str _ => "string"
  | .ref _ => "object"

/-- JavaScript truthiness (`!!v`). -/
def jsTruthy : JSVal → Bool
  | .undefined => false
  | .null => false
  | .bool b => b
  | .num n => !(n = 0 : Bool)
  | .str s => !(s = "" : Bool)
  | .ref _ => true

/-- `v instanceof BaseBound`: true exactly when `v` is a reference to a heap
object tagged as a `BaseBound` instance. -/
def instanceOfBaseBound (h : Heap) (v : JSVal) : Bool :=
  match v with
  | .ref r =>
    match h[r]? with
    | some o => o.isBaseBound
    | none => false
  | _ => false

/-- `BaseBound.isBound` (base.ts:106-108):
`return !!obj.__bound__ && (obj.__bound__ instanceof BaseBound);`.
Reading `.__bound__` throws a TypeError when `obj` is `undefined` or
`null`, exactly as in JavaScript. -/
def isBoundFn (h : Heap) (v : JSVal) : Except JSErr Bool :=
  match heapGet h v "__bound__" with
  | .error e => .error e
  | .ok b => .ok (jsTruthy b && instanceOfBaseBound h b)

/-- base.ts:61: message of the BoundError raised for a non-object prototype. -/
def onlyObjectsMsg : String :=
  "Only object binds are allowed. For property and pure value bindings use Binding from \"bound/binding\"."

/-- base.ts:65: message of the BoundError raised when rebinding a bound object. -/
def rebindMsg : String := "Cannot rebind a bound object."

/-- The allocations performed before `BaseBound`'s constructor body runs
(base.ts:39, 46, 55-58): the instance itself (tagged as a `BaseBound`), the
empty `storage` object, and `boundObject` created as the object literal
`{ __bound__: this }` to which `Object.defineProperty(this.boundObject,
"__bound__", { value: this, writable: true })` is immediately applied.  The
instance sits at index `h.length`, `storage` at `h.length + 1` and
`boundObject` at `h.length + 2`. -/
def baseBoundAlloc (h : Heap) : Heap :=
  let thisRef := h.length
  let instObj : JSObj :=
    { props := [("storage", { value := .ref (h.length + 1), writable := true, enumerable := true }),
                ("boundObject", { value := .ref (h.length + 2), writable := true, enumerable := true })],
      isBaseBound := true }
  let storageObj : JSObj := { props := [], isBaseBound := false }
  -- the object literal { __bound__: this } creates an enumerable, writable property
  let boundLit : List (String × JSProp) :=
    [("__bound__", { value := .ref thisRef, writable := true, enumerable := true })]
  -- Object.defineProperty(this.boundObject, "__bound__", { value: this, writable: true })
  let boundObj : JSObj := { props := definePropsVW boundLit "__bound__" (.ref thisRef) true,
                            isBaseBound := false }
  h ++ [instObj, storageObj, boundObj]

/-- The `BaseBound` constructor (base.ts:53-67).  Returns the heap after the
field-initializer allocations together with either the raised error or the
pair (reference of the instance, reference of `boundObject`).  The two
checks are translated with JavaScript operator precedence and
short-circuiting: `debug && proto instanceof BaseBound || isBound(proto)`
parses as `(debug && proto instanceof BaseBound) || isBound(proto)`, so the
`isBound` disjunct is evaluated (and can throw) even when debug is off. -/
def baseBoundCtor (debug : Bool) (proto : JSVal) (h : Heap) :
    Heap × Except JSErr (Nat × Nat) :=
  let h4 := baseBoundAlloc h
  if debug && !(jsTypeof proto = "object" : Bool) then
    (h4, .error (.boundError onlyObjectsMsg))
  else if debug && instanceOfBaseBound h4 proto then
    (h4, .error (.boundError rebindMsg))
  else
    match isBoundFn h4 proto with
    | .error e => (h4, .error e)
    | .ok true => (h4, .error (.boundError rebindMsg))
    | .ok false => (h4, .ok (h.length, h.length + 2))

/-- `BaseBound.bindAndMap` (base.ts:84-86): the body is a single `throw new
BoundError("Method not implemented.")`.  The method never consults the
config, so the ambient `debug` flag is recorded as an (unused) parameter to
state that the error is raised regardless of it. -/
def bindAndMap (debug : Bool) (obj : JSVal) (mapToOriginal : JSVal) (twoWay : Bool) :
    Except JSErr Unit :=
  .error (.boundError "Method not implemented.")

/-- A `Binding` instance (the class imported from `src/binding`, which is
not among the source files).  Modelled from the spec: one tracked primitive
value, a two-way flag, and the ordered list of registered
(target, key) mirror pairs. -/
structure Binding where
  twoWay : Bool
  value : JSVal
  masters : List (JSVal × String)
deriving Repr, DecidableEq

/-- Modelled from the spec: the `Binding` class is not under `src/`.
Spec 4.1: `addMasterBinding(target, key)` registers `target[key]` as a
mirror of this binding's value and immediately sets `target[key]` to the
binding's current value so the new mirror starts synchronized. -/
def Binding.addMasterBinding (b : Binding) (target : JSVal) (k : String) (h : Heap) :
    Except JSErr (Binding × Heap) :=
  match heapSet h target k b.value with
  | .error e => .error e
  | .ok h' => .ok ({ b with masters := b.masters ++ [(target, k)] }, h')

/-- Assign `v` to every registered (target, key) pair, in registration
order (the fan-out part of a Binding value write, spec 4.1). -/
def assignMasters : List (JSVal × String) → JSVal → Heap → Except JSErr Heap
  | [], _, h => .ok h
  | (t, k) :: rest, v, h =>
    match heapSet h t k v with
    | .error e => .error e
    | .ok h' => assignMasters rest v h'

/-- Modelled from the spec: the `Binding` class is not under `src/`.
Spec 4.1, value write: update the internally tracked value and then, for
every registered (target, key) pair, assign the new value to `target[key]`,
in registration order, synchronously before returning. -/
def Binding.setValue (b : Binding) (v : JSVal) (h : Heap) :
    Except JSErr (Binding × Heap) :=
  match assignMasters b.masters v h with
  | .error e => .error e
  | .ok h' => .ok ({ b with value := v }, h')

/-- One entry of a `SimpleBound` storage tree (simple.ts:113-118): a leaf
holds a `Binding`, a composite node holds the storage tree of the child
`SimpleBound`. -/
inductive StorageVal where
  | binding (b : Binding)
  | child (st : List (String × StorageVal))
deriving Repr

/-- A `SimpleBound` storage tree: keys in insertion order. -/
abbrev Storage := List (String × StorageVal)

/-- `SimpleBound.bind` (simple.ts:139-143):
`for (const key in this.storage) (this.storage[key] as Binding).addMasterBinding(obj, key);`.
The cast performs no runtime check, so when the stored value is a nested
child storage tree (a plain object with no `addMasterBinding` method) the
call throws a TypeError.  Returns the updated storage (the bindings are
mutated in place in JavaScript) and the updated heap. -/
def simpleBind : Storage → JSVal → Heap → Except JSErr (Storage × Heap)
  | [], _, h => .ok ([], h)
  | (k, .binding b) :: rest, obj, h =>
    match b.addMasterBinding obj k h with
    | .error e => .error e
    | .ok (b', h') =>
      match simpleBind rest obj h' with
      | .error e => .error e
      | .ok (rest', h'') => .ok ((k, .binding b') :: rest', h'')
  | (_, .child _) :: _, _, _ =>
    .error (.typeError "this.storage[key].addMasterBinding is not a function")

/-- The registration that `SimpleBound.bind` performs when every stored
value is a `Binding`: each binding gets `(obj, key)` appended to its mirror
list; (unreachable) child entries are left unchanged. -/
def mapRegister (r : Nat) : Storage → Storage
  | [] => []
  | (k, .binding b) :: rest =>
    (k, .binding { b with masters := b.masters ++ [(.ref r, k)] }) :: mapRegister r rest
  | (k, .child c) :: rest => (k, .child c) :: mapRegister r rest

/-- Whether every top-level entry of a storage tree is a `Binding` leaf. -/
def allBindings : Storage → Bool
  | [] => true
  | (_, .binding _) :: rest => allBindings rest
  | (_, .child _) :: _ => false

/-- Whether reference `r` denotes an object all of whose properties are
writable (so plain assignments to it cannot throw). -/
def targetWritable (h : Heap) (r : Nat) : Bool :=
  match h[r]? with
  | some o => o.props.all fun kp => kp.2.writable
  | none => false

/-- The data tree a `SimpleBound` prototype argument denotes.  `vFunc`
stands for a function-valued field (dropped by the JSON round trip); object
references are expanded into their data tree, which is what
`JSON.parse(JSON.stringify(obj))` consumes. -/
inductive JData where
  | vUndefined
  | vNull
  | vBool (b : Bool)
  | vNum (n : Int)
  | vStr (s : String)
  | vFunc
  | vObj (fields : List (String × JData))
deriving Repr

/-- Values that `JSON.stringify` drops when they appear as object fields. -/
def jsonDropped : JData → Bool
  | .vUndefined => true
  | .vFunc => true
  | _ => false

mutual

/-- The effect of the JSON serialize/deserialize round trip on a data tree:
function-valued and undefined-valued fields are dropped, everything else is
kept structurally. -/
def jsonStrip : JData → JData
  | .vObj fs => .vObj (jsonStripFields fs)
  | t => t

/-- Field-list part of `jsonStrip`. -/
def jsonStripFields : List (String × JData) → List (String × JData)
  | [] => []
  | (k, v) :: rest =>
    if jsonDropped v then jsonStripFields rest
    else (k, jsonStrip v) :: jsonStripFields rest

end

/-- `JSON.parse(JSON.stringify(obj))` (simple.ts:123): for a root whose
stringification is `undefined` (a function or `undefined` itself),
`JSON.parse` receives no valid JSON and throws a SyntaxError; otherwise the
round trip strips the non-serializable fields. -/
def jsonRoundTrip : JData → Except JSErr JData
  | .vUndefined => .error (.syntaxError "undefined is not valid JSON")
  | .vFunc => .error (.syntaxError "undefined is not valid JSON")
  | t => .ok (jsonStrip t)

/-- The keys enumerated by `for (const key in original)` (simple.ts:125):
the enumerable fields of an object, the character positions of a string,
and nothing for other primitives. -/
def jFields : JData → List (String × JData)
  | .vObj fs => fs
  | .vStr s => s.data.enum.map fun p => (toString p.1, JData.vStr (String.mk [p.2]))
  | _ => []

/-- `typeof original[key] === "object"` on a data tree (`null` and objects). -/
def jTypeofIsObject : JData → Bool
  | .vNull => true
  | .vObj _ => true
  | _ => false

/-- The `JSVal` a primitive data-tree leaf denotes (the remaining cases are
unreachable in the constructor loop: objects take the other branch and
functions have been stripped by the round trip). -/
def jPrimVal : JData → JSVal
  | .vUndefined => .undefined
  | .vNull => .null
  | .vBool b => .bool b
  | .vNum n => .num n
  | .vStr s => .str s
  | .vFunc => .undefined
  | .vObj _ => .undefined

mutual

/-- `new SimpleBound(obj)` (simple.ts:120-137).  `fuel` models the
JavaScript call stack: it decreases on every step of the construction and
its exhaustion corresponds to a RangeError (stack overflow); every theorem
below quantifies over it or picks it large enough, and no reachable path
ever consumes it, because the constructor stops at `super()` first.

The translation follows the source line by line:
* `super();` passes no argument, so `proto` is `undefined` inside
  `BaseBound`'s constructor;
* `const original = JSON.parse(JSON.stringify(obj));`
* the `for (const key in original)` loop is `simpleBoundFields`.

On success the result is (instance reference, boundObject reference,
storage tree); the heap after the executed side effects is always
returned. -/
def simpleBoundNew : Nat → Bool → JData → Heap → Heap × Except JSErr (Nat × Nat × Storage)
  | 0, _, _, h => (h, .error (.rangeError "Maximum call stack size exceeded"))
  | fuel + 1, debug, obj, h =>
    match baseBoundCtor debug .undefined h with
    | (h1, .error e) => (h1, .error e)
    | (h1, .ok (thisRef, boundRef)) =>
      match jsonRoundTrip obj with
      | .error e => (h1, .error e)
      | .ok original => simpleBoundFields fuel debug (jFields original) h1 thisRef boundRef []

/-- The body of the constructor's `for (const key in original)` loop
(simple.ts:125-136), threading the heap and the storage accumulator.

For an object-typed value (`typeof original[key] === "object"`, which is
also true of `null`): `const bound = new SimpleBound(original[key]);` then
`this.bound[key] = bound.bound;` and `this.storage[key] = bound.storage;`.
The class has no field named `bound` (its fields are `storage`,
`boundObject` and `plugins`), so both `this.bound` and `bound.bound` are
property reads that yield `undefined`, and the assignment
`this.bound[key] = ...` throws a TypeError.

Otherwise: `const binding = new Binding(true, original[key]);`
`binding.addMasterBinding(this.bound, key);` (again `this.bound` is
`undefined`, so the registration's write to `target[key]` throws) and
`this.storage[key] = binding;`. -/
def simpleBoundFields : Nat → Bool → List (String × JData) → Heap → Nat → Nat → Storage →
    Heap × Except JSErr (Nat × Nat × Storage)
  | 0, _, _, h, _, _, _ => (h, .error (.rangeError "Maximum call stack size exceeded"))
  | _ + 1, _, [], h, thisRef, boundRef, st => (h, .ok (thisRef, boundRef, st))
  | fuel + 1, debug, (key, v) :: rest, h, thisRef, boundRef, st =>
    if jTypeofIsObject v then
      match simpleBoundNew fuel debug v h with
      | (h2, .error e) => (h2, .error e)
      | (h2, .ok (childThis, _childBound, childStorage)) =>
        match heapGet h2 (.ref thisRef) "bound" with
        | .error e => (h2, .error e)
        | .ok thisBound =>
          match heapGet h2 (.ref childThis) "bound" with
          | .error e => (h2, .error e)
          | .ok childBoundVal =>
            match heapSet h2 thisBound key childBoundVal with
            | .error e => (h2, .error e)
            | .ok h3 =>
              simpleBoundFields fuel debug rest h3 thisRef boundRef
                (st ++ [(key, .child childStorage)])
    else
      match heapGet h (.ref thisRef) "bound" with
      | .error e => (h, .error e)
      | .ok thisBound =>
        let binding : Binding := { twoWay := true, value := jPrimVal v, masters := [] }
        match binding.addMasterBinding thisBound key h with
        | .error e => (h, .error e)
        | .ok (b1, h2) =>
          simpleBoundFields fuel debug rest h2 thisRef boundRef (st ++ [(key, .binding b1)])

end

/-! ### Helper lemmas about the property-table and heap operations -/

theorem propsValue_setProps_self {ps ps' : List (String × JSProp)} {k : String} {v : JSVal}
    (h : setProps ps k v = some ps') : propsValue ps' k = some v := by
  induction ps generalizing ps' with
  | nil =>
    simp only [setProps] at h
    cases h
    simp [propsValue, lookupProp]
  | cons kp rest ih =>
    obtain ⟨k0, p⟩ := kp
    simp only [setProps] at h
    by_cases hk : k0 = k
    · subst hk
      simp only [if_pos rfl] at h
      by_cases hw : p.writable
      · rw [if_pos hw] at h
        cases h
        simp [propsValue, lookupProp]
      · rw [if_neg hw] at h
        cases h
    · rw [if_neg hk] at h
      cases hr : setProps rest k v with
      | none => rw [hr] at h; cases h
      | some rest' =>
        rw [hr] at h
        cases h
        simpa [propsValue, lookupProp, hk] using ih hr

theorem propsValue_setProps_ne {ps ps' : List (String × JSProp)} {k k' : String} {v : JSVal}
    (hne : k' ≠ k) (h : setProps ps k v = some ps') : propsValue ps' k' = propsValue ps k' := by
  induction ps generalizing ps' with
  | nil =>
    simp only [setProps] at h
    cases h
    simp [propsValue, lookupProp, Ne.symm hne]
  | cons kp rest ih =>
    obtain ⟨k0, p⟩ := kp
    simp only [setProps] at h
    by_cases hk : k0 = k
    · subst hk
      simp only [if_pos rfl] at h
      by_cases hw : p.writable
      · rw [if_pos hw] at h
        cases h
        simp [propsValue, lookupProp, Ne.symm hne]
      · rw [if_neg hw] at h
        cases h
    · rw [if_neg hk] at h
      cases hr : setProps rest k v with
      | none => rw [hr] at h; cases h
      | some rest' =>
        rw [hr] at h
        cases h
        by_cases hk' : k0 = k'
        · simp [propsValue, lookupProp, hk']
        · simp only [propsValue, lookupProp, if_neg hk']
          simpa [propsValue] using ih hr

theorem heapSet_ok_elim {h h' : Heap} {t : JSVal} {k : String} {v : JSVal}
    (hs : heapSet h t k v = .ok h') :
    ∃ r o ps', t = .ref r ∧ h[r]? = some o ∧ setProps o.props k v = some ps' ∧
      h' = h.set r { o with props := ps' } := by
  cases t with
  | ref r =>
    cases ho : h[r]? with
    | none => simp only [heapSet, ho] at hs; cases hs
    | some o =>
      cases hp : setProps o.props k v with
      | none => simp only [heapSet, ho, hp] at hs; cases hs
      | some ps' =>
        simp only [heapSet, ho, hp] at hs
        cases hs
        exact ⟨r, o, ps', rfl, ho, hp, rfl⟩
  | undefined => cases hs
  | null => cases hs
  | bool b => cases hs
  | num n => cases hs
  | str s => cases hs

theorem length_heapSet {h h' : Heap} {t : JSVal} {k : String} {v : JSVal}
    (hs : heapSet h t k v = .ok h') : h'.length = h.length := by
  obtain ⟨r, o, ps', -, -, -, rfl⟩ := heapSet_ok_elim hs
  exact List.length_set ..

theorem heapGet_heapSet_self {h h' : Heap} {t : JSVal} {k : String} {v : JSVal}
    (hs : heapSet h t k v = .ok h') : heapGet h' t k = .ok v := by
  obtain ⟨r, o, ps', rfl, ho, hp, rfl⟩ := heapSet_ok_elim hs
  have hr : r < h.length := by
    by_contra hge
    rw [List.getElem?_eq_none (by omega)] at ho
    cases ho
  have hv := propsValue_setProps_self hp
  simp only [heapGet, rawPropGet, List.getElem?_set_self hr]
  simp only [propsValue] at hv
  cases hl : lookupProp ps' k with
  | none => rw [hl] at hv; cases hv
  | some p =>
    rw [hl] at hv
    simp only [Option.some.injEq] at hv
    simp [hv]

theorem heapGet_heapSet_preserve {h h' : Heap} {t t' : JSVal} {k k' : String} {v : JSVal}
    (hs : heapSet h t k v = .ok h') (hg : heapGet h t' k' = .ok v) :
    heapGet h' t' k' = .ok v := by
  obtain ⟨r, o, ps', rfl, ho, hp, rfl⟩ := heapSet_ok_elim hs
  cases t' with
  | undefined => cases hg
  | null => cases hg
  | bool b => simpa [heapGet, rawPropGet] using hg
  | num n => simpa [heapGet, rawPropGet] using hg
  | str s => simpa [heapGet, rawPropGet] using hg
  | ref r' =>
    by_cases hrr : r = r'
    · subst hrr
      have hr : r < h.length := by
        by_contra hge
        rw [List.getElem?_eq_none (by omega)] at ho
        cases ho
      by_cases hkk : k' = k
      · subst hkk
        exact heapGet_heapSet_self hs
      · simp only [heapGet, rawPropGet, List.getElem?_set_self hr]
        simp only [heapGet, rawPropGet, ho] at hg
        have hpr := propsValue_setProps_ne hkk hp
        simp only [propsValue] at hpr
        cases hl' : lookupProp ps' k' with
        | none =>
          rw [hl'] at hpr
          cases hl : lookupProp o.props k' with
          | none => rw [hl] at hg; simpa using hg
          | some p => rw [hl] at hpr; cases hpr
        | some p' =>
          rw [hl'] at hpr
          cases hl : lookupProp o.props k' with
          | none => rw [hl] at hpr; cases hpr
          | some p =>
            rw [hl] at hpr hg
            simp only [Option.some.injEq] at hpr
            simpa [hpr] using hg
    · simp only [heapGet, rawPropGet, List.getElem?_set_ne hrr]
      simpa [heapGet, rawPropGet] using hg

theorem assignMasters_preserve {l : List (JSVal × String)} {v : JSVal} {h h' : Heap}
    {t : JSVal} {k : String}
    (ha : assignMasters l v h = .ok h') (hg : heapGet h t k = .ok v) :
    heapGet h' t k = .ok v := by
  induction l generalizing h with
  | nil => simp only [assignMasters] at ha; cases ha; exact hg
  | cons tk rest ih =>
    obtain ⟨t0, k0⟩ := tk
    simp only [assignMasters] at ha
    cases hs : heapSet h t0 k0 v with
    | error e => rw [hs] at ha; cases ha
    | ok h1 =>
      rw [hs] at ha
      exact ih ha (heapGet_heapSet_preserve hs hg)

theorem assignMasters_mem {l : List (JSVal × String)} {v : JSVal} {h h' : Heap}
    {t : JSVal} {k : String}
    (ha : assignMasters l v h = .ok h') (hm : (t, k) ∈ l) :
    heapGet h' t k = .ok v := by
  induction l generalizing h with
  | nil => cases hm
  | cons tk rest ih =>
    obtain ⟨t0, k0⟩ := tk
    simp only [assignMasters] at ha
    cases hs : heapSet h t0 k0 v with
    | error e => rw [hs] at ha; cases ha
    | ok h1 =>
      rw [hs] at ha
      rcases List.mem_cons.mp hm with heq | hrest
      · cases heq
        exact assignMasters_preserve ha (heapGet_heapSet_self hs)
      · exact ih ha hrest

/-! ### C2: write propagation through a Binding -/

/-- C2: for every Binding and every set of registered (target, key) mirror
pairs, after a write of a new value through the Binding completes
(`setValue` returns `.ok`), every registered pair observes that same value:
`target[key]` reads back exactly the value now tracked by the Binding, for
all registered pairs, and the updates happened synchronously within the
write call (the returned heap). -/
theorem binding_write_propagation (b : Binding) (v : JSVal) (h : Heap)
    (b' : Binding) (h' : Heap) (hok : b.setValue v h = .ok (b', h'))
    (t : JSVal) (k : String) (hm : (t, k) ∈ b.masters) :
    b'.value = v ∧ heapGet h' t k = .ok v := by
  simp only [Binding.setValue] at hok
  cases ha : assignMasters b.masters v h with
  | error e => rw [ha] at hok; cases hok
  | ok h1 =>
    rw [ha] at hok
    cases hok
    exact ⟨rfl, assignMasters_mem ha hm⟩

/-- Witness for C2 at a concrete Binding with two registered mirrors. -/
theorem binding_write_propagation_witness :
    (Binding.mk true (.num 5) [(.ref 0, "x"), (.ref 1, "x")]).value = .num 5 ∧
      heapGet [JSObj.mk [("x", ⟨.num 5, true, true⟩)] false,
               JSObj.mk [("x", ⟨.num 5, true, true⟩)] false] (.ref 1) "x" = .ok (.num 5) :=
  binding_write_propagation
    ⟨true, .num 1, [(.ref 0, "x"), (.ref 1, "x")]⟩ (.num 5)
    [⟨[("x", ⟨.num 1, true, true⟩)], false⟩, ⟨[], false⟩]
    ⟨true, .num 5, [(.ref 0, "x"), (.ref 1, "x")]⟩
    [⟨[("x", ⟨.num 5, true, true⟩)], false⟩, ⟨[("x", ⟨.num 5, true, true⟩)], false⟩]
    rfl (.ref 1) "x" (by decide)

/-! ### Lemmas for `SimpleBound.bind` -/

theorem setProps_isSome_of_writable {ps : List (String × JSProp)} {k : String} {v : JSVal}
    (hw : ∀ kp ∈ ps, kp.2.writable = true) : (setProps ps k v).isSome = true := by
  induction ps with
  | nil => rfl
  | cons kp rest ih =>
    obtain ⟨k0, p⟩ := kp
    by_cases hk : k0 = k
    · subst hk
      have hpw : p.writable = true := hw (k0, p) (List.mem_cons_self ..)
      simp [setProps, hpw]
    · have hr := ih fun x hx => hw x (List.mem_cons_of_mem _ hx)
      simp only [setProps, if_neg hk]
      cases hs : setProps rest k v with
      | none => rw [hs] at hr; simp at hr
      | some rest' => simp

theorem setProps_writable_preserve {ps ps' : List (String × JSProp)} {k : String} {v : JSVal}
    (hs : setProps ps k v = some ps') (hw : ∀ kp ∈ ps, kp.2.writable = true) :
    ∀ kp ∈ ps', kp.2.writable = true := by
  induction ps generalizing ps' with
  | nil =>
    simp only [setProps] at hs
    cases hs
    intro kp hkp
    have := List.mem_singleton.mp hkp
    subst this
    rfl
  | cons kp0 rest ih =>
    obtain ⟨k0, p⟩ := kp0
    simp only [setProps] at hs
    by_cases hk : k0 = k
    · subst hk
      rw [if_pos rfl] at hs
      by_cases hpw : p.writable
      · rw [if_pos hpw] at hs
        cases hs
        intro kp hkp
        rcases List.mem_cons.mp hkp with rfl | hmem
        · exact hpw
        · exact hw kp (List.mem_cons_of_mem _ hmem)
      · rw [if_neg hpw] at hs
        cases hs
    · rw [if_neg hk] at hs
      cases hr : setProps rest k v with
      | none => rw [hr] at hs; cases hs
      | some rest' =>
        rw [hr] at hs
        cases hs
        intro kp hkp
        rcases List.mem_cons.mp hkp with rfl | hmem
        · exact hw (k0, p) (List.mem_cons_self ..)
        · exact ih hr (fun x hx => hw x (List.mem_cons_of_mem _ hx)) kp hmem

theorem heapSet_ok_of_targetWritable {h : Heap} {r : Nat} (k : String) (v : JSVal)
    (hw : targetWritable h r = true) :
    ∃ h', heapSet h (.ref r) k v = .ok h' ∧ targetWritable h' r = true := by
  unfold targetWritable at hw
  cases ho : h[r]? with
  | none => rw [ho] at hw; cases hw
  | some o =>
    rw [ho] at hw
    have hwl : ∀ kp ∈ o.props, kp.2.writable = true := by
      intro kp hkp
      exact List.all_eq_true.mp hw kp hkp
    obtain ⟨ps', hps⟩ := Option.isSome_iff_exists.mp (setProps_isSome_of_writable (k := k) (v := v) hwl)
    refine ⟨h.set r { o with props := ps' }, by simp [heapSet, ho, hps], ?_⟩
    have hr : r < h.length := by
      by_contra hge
      rw [List.getElem?_eq_none (by omega)] at ho
      cases ho
    unfold targetWritable
    rw [List.getElem?_set_self hr]
    exact List.all_eq_true.mpr (setProps_writable_preserve hps hwl)

theorem heapSet_error_typeError {h : Heap} {t : JSVal} {k : String} {v : JSVal} {e : JSErr}
    (hs : heapSet h t k v = .error e) : ∃ m, e = .typeError m := by
  cases t with
  | ref r =>
    cases ho : h[r]? with
    | none => simp only [heapSet, ho] at hs; cases hs; exact ⟨_, rfl⟩
    | some o =>
      cases hp : setProps o.props k v with
      | none => simp only [heapSet, ho, hp] at hs; cases hs; exact ⟨_, rfl⟩
      | some ps' => simp only [heapSet, ho, hp] at hs; cases hs
  | undefined => cases hs; exact ⟨_, rfl⟩
  | null => cases hs; exact ⟨_, rfl⟩
  | bool b => cases hs; exact ⟨_, rfl⟩
  | num n => cases hs; exact ⟨_, rfl⟩
  | str s => cases hs; exact ⟨_, rfl⟩

theorem addMasterBinding_ok_elim {b b' : Binding} {target : JSVal} {k : String}
    {h h' : Heap} (ha : b.addMasterBinding target k h = .ok (b', h')) :
    b' = { b with masters := b.masters ++ [(target, k)] } ∧
      heapSet h target k b.value = .ok h' := by
  simp only [Binding.addMasterBinding] at ha
  cases hs : heapSet h target k b.value with
  | error e => rw [hs] at ha; cases ha
  | ok h1 =>
    rw [hs] at ha
    cases ha
    exact ⟨rfl, rfl⟩

theorem simpleBind_flat_ok {st : Storage} {r : Nat} {h : Heap}
    (hb : allBindings st = true) (hw : targetWritable h r = true) :
    ∃ h', simpleBind st (.ref r) h = .ok (mapRegister r st, h') ∧
      targetWritable h' r = true := by
  induction st generalizing h with
  | nil => exact ⟨h, rfl, hw⟩
  | cons ksv rest ih =>
    obtain ⟨k, sv⟩ := ksv
    cases sv with
    | child c => simp [allBindings] at hb
    | binding b =>
      have hbr : allBindings rest = true := hb
      obtain ⟨h1, hs1, hw1⟩ := heapSet_ok_of_targetWritable k b.value hw
      obtain ⟨h', hrest, hw'⟩ := ih hbr hw1
      refine ⟨h', ?_, hw'⟩
      simp [simpleBind, Binding.addMasterBinding, hs1, hrest, mapRegister]

theorem simpleBind_not_flat_error {st : Storage} {obj : JSVal} {h : Heap}
    (hb : allBindings st = false) :
    ∃ m, simpleBind st obj h = .error (.typeError m) := by
  induction st generalizing h with
  | nil => cases hb
  | cons ksv rest ih =>
    obtain ⟨k, sv⟩ := ksv
    cases sv with
    | child c => exact ⟨_, rfl⟩
    | binding b =>
      have hbr : allBindings rest = false := hb
      cases ha : b.addMasterBinding obj k h with
      | error e =>
        obtain ⟨m0, rfl⟩ : ∃ m, e = .typeError m := by
          simp only [Binding.addMasterBinding] at ha
          cases hs : heapSet h obj k b.value with
          | error e' =>
            rw [hs] at ha
            cases ha
            exact heapSet_error_typeError hs
          | ok h1 => rw [hs] at ha; cases ha
        refine ⟨m0, ?_⟩
        simp [simpleBind, ha]
      | ok bh =>
        obtain ⟨b', h1⟩ := bh
        obtain ⟨m, hrest⟩ := ih (h := h1) hbr
        exact ⟨m, by simp [simpleBind, ha, hrest]⟩

/-! ### C5: what `SimpleBound.bind` actually registers -/

/-- C5 counterexample: on a storage containing a nested child tree,
`SimpleBound.bind` does not skip the entry (there is no `is a Binding`
check, only an unchecked cast), it throws a TypeError.  This refutes the
claim that bind completes without error when the prototype contained
nested object-valued keys. -/
theorem simpleBind_nested_child_throws :
    simpleBind [("b", .child [])] (.ref 0) ([⟨[], false⟩] : Heap) =
      .error (.typeError "this.storage[key].addMasterBinding is not a function") := rfl

/-- C5 (amended): `SimpleBound.bind` casts every storage entry to `Binding`
without checking.  When every top-level stored value is a Binding, bind
registers `(obj, key)` as an additional mirror for exactly those keys
(`mapRegister` appends the pair to each binding's mirror list, with no
recursion into nested children); when some stored value is a nested child
storage tree instead, bind throws a TypeError rather than completing. -/
theorem simpleBind_characterization (st : Storage) (r : Nat) (h : Heap) :
    (allBindings st = true → targetWritable h r = true →
      ∃ h', simpleBind st (.ref r) h = .ok (mapRegister r st, h'))
  ∧ (allBindings st = false →
      ∃ m, simpleBind st (.ref r) h = .error (.typeError m)) :=
  ⟨fun hb hw => (simpleBind_flat_ok hb hw).imp fun _ hp => hp.1,
   fun hb => simpleBind_not_flat_error hb⟩

/-- Witness for C5 at a concrete flat storage and a concrete storage with a
nested child. -/
theorem simpleBind_characterization_witness :
    (∃ h', simpleBind [("x", .binding ⟨true, .num 1, []⟩), ("y", .binding ⟨true, .str "s", []⟩)]
        (.ref 0) ([⟨[], false⟩] : Heap) =
      .ok (mapRegister 0 [("x", .binding ⟨true, .num 1, []⟩), ("y", .binding ⟨true, .str "s", []⟩)], h'))
  ∧ (∃ m, simpleBind [("a", .binding ⟨true, .num 1, []⟩), ("b", .child [])]
        (.ref 0) ([⟨[], false⟩] : Heap) = .error (.typeError m)) :=
  ⟨(simpleBind_characterization
      [("x", .binding ⟨true, .num 1, []⟩), ("y", .binding ⟨true, .str "s", []⟩)] 0
      ([⟨[], false⟩] : Heap)).1 rfl rfl,
   (simpleBind_characterization
      [("a", .binding ⟨true, .num 1, []⟩), ("b", .child [])] 0
      ([⟨[], false⟩] : Heap)).2 rfl⟩

/-! ### C4: which constructor errors are gated by the debug flag -/

theorem isBoundFn_ok_true_ref {h : Heap} {v : JSVal} (hv : isBoundFn h v = .ok true) :
    ∃ r, v = .ref r := by
  cases v with
  | ref r => exact ⟨r, rfl⟩
  | undefined => cases hv
  | null => cases hv
  | bool b => simp [isBoundFn, heapGet, rawPropGet, jsTruthy] at hv
  | num n => simp [isBoundFn, heapGet, rawPropGet, jsTruthy] at hv
  | str s => simp [isBoundFn, heapGet, rawPropGet, jsTruthy] at hv

theorem isBoundFn_error_typeError {h : Heap} {v : JSVal} {e : JSErr}
    (hv : isBoundFn h v = .error e) : ∃ m, e = .typeError m := by
  cases v with
  | undefined => cases hv; exact ⟨_, rfl⟩
  | null => cases hv; exact ⟨_, rfl⟩
  | ref r => simp [isBoundFn, heapGet] at hv
  | bool b => simp [isBoundFn, heapGet] at hv
  | num n => simp [isBoundFn, heapGet] at hv
  | str s => simp [isBoundFn, heapGet] at hv

/-- C4 counterexample: with the debug flag disabled, constructing a
`BaseBound` over a prototype that is already a bound object still raises
the BindingError "Cannot rebind a bound object": operator precedence makes
the `isBound(proto)` disjunct of the check independent of the debug flag.
This refutes the claim that with debug disabled construction raises
neither error. -/
theorem rebind_error_without_debug :
    (baseBoundCtor false (.ref 1)
      ([⟨[], true⟩, ⟨[("__bound__", ⟨.ref 0, true, true⟩)], false⟩] : Heap)).2 =
      .error (.boundError rebindMsg) := rfl

/-- C4 (amended): the non-object BindingError is raised only when debug is
enabled (and never when it is disabled), but the rebind BindingError is not
fully debug-gated: it is raised whenever `isBound(proto)` holds, regardless
of debug (only the `proto instanceof BaseBound` disjunct is gated); with
debug disabled and a prototype that is not already bound, construction
completes without error. -/
theorem baseBoundCtor_error_gating (proto : JSVal) (h : Heap) :
    (jsTypeof proto ≠ "object" →
      (baseBoundCtor true proto h).2 = .error (.boundError onlyObjectsMsg))
  ∧ ((baseBoundCtor false proto h).2 ≠ .error (.boundError onlyObjectsMsg))
  ∧ (∀ debug : Bool, isBoundFn (baseBoundAlloc h) proto = .ok true →
      (baseBoundCtor debug proto h).2 = .error (.boundError rebindMsg))
  ∧ (isBoundFn (baseBoundAlloc h) proto = .ok false →
      (baseBoundCtor false proto h).2 = .ok (h.length, h.length + 2)) := by
  refine ⟨?_, ?_, ?_, ?_⟩
  · intro hne
    simp [baseBoundCtor, hne]
  · cases hib : isBoundFn (baseBoundAlloc h) proto with
    | error e =>
      obtain ⟨m, rfl⟩ := isBoundFn_error_typeError hib
      simp [baseBoundCtor, hib]
    | ok b =>
      cases b with
      | true =>
        simp only [baseBoundCtor]
        simp [hib, rebindMsg, onlyObjectsMsg]
      | false => simp [baseBoundCtor, hib]
  · intro debug hv
    obtain ⟨r, rfl⟩ := isBoundFn_ok_true_ref hv
    cases debug with
    | false => simp [baseBoundCtor, hv]
    | true =>
      by_cases hio : instanceOfBaseBound (baseBoundAlloc h) (.ref r)
      · simp [baseBoundCtor, jsTypeof, hio]
      · simp [baseBoundCtor, jsTypeof, hio, hv]
  · intro hv
    simp [baseBoundCtor, hv]

/-- Witness for C4 at concrete inputs: a numeric prototype with debug on, a
bound prototype with debug off, and a fresh object prototype with debug
off. -/
theorem baseBoundCtor_error_gating_witness :
    ((baseBoundCtor true (.num 3) ([] : Heap)).2 = .error (.boundError onlyObjectsMsg))
  ∧ ((baseBoundCtor false (.ref 1)
        ([⟨[], true⟩, ⟨[("__bound__", ⟨.ref 0, true, true⟩)], false⟩] : Heap)).2 =
      .error (.boundError rebindMsg))
  ∧ ((baseBoundCtor false (.ref 0) ([⟨[], false⟩] : Heap)).2 = .ok (1, 3)) :=
  ⟨(baseBoundCtor_error_gating (.num 3) ([] : Heap)).1 (by decide),
   (baseBoundCtor_error_gating (.ref 1)
      ([⟨[], true⟩, ⟨[("__bound__", ⟨.ref 0, true, true⟩)], false⟩] : Heap)).2.2.1 false rfl,
   (baseBoundCtor_error_gating (.ref 0) ([⟨[], false⟩] : Heap)).2.2.2 rfl⟩

/-! ### C6: `BaseBound.isBound` -/

/-- C6 counterexample: `isBound` does not return a boolean for every
argument: on `undefined` the read of `.__bound__` throws a TypeError
(the very behaviour the `SimpleBound` constructor trips over). -/
theorem isBound_undefined_throws :
    isBoundFn [] .undefined =
      .error (.typeError "Cannot read properties of undefined (reading __bound__)") := rfl

/-- C6 (amended): for every argument that is not `undefined` or `null`,
`isBound` returns a boolean that is true iff the argument carries a
non-falsy `__bound__` field that is an instance of `BaseBound` (on nullish
arguments it throws a TypeError instead); in particular it is true for a
`boundObject` produced by construction, false for an empty object, and
false for a plain object whose `__bound__` field is falsy. -/
theorem isBound_characterization :
    (∀ (h : Heap) (v : JSVal), v ≠ .undefined → v ≠ .null →
      isBoundFn h v = .ok (jsTruthy (rawPropGet h v "__bound__") &&
        instanceOfBaseBound h (rawPropGet h v "__bound__")))
  ∧ ((baseBoundCtor false (.ref 0) ([⟨[], false⟩] : Heap)).2 = .ok (1, 3) ∧
      isBoundFn (baseBoundCtor false (.ref 0) ([⟨[], false⟩] : Heap)).1 (.ref 3) = .ok true)
  ∧ (isBoundFn ([⟨[], false⟩] : Heap) (.ref 0) = .ok false)
  ∧ (isBoundFn ([⟨[("__bound__", ⟨.bool false, true, true⟩)], false⟩] : Heap) (.ref 0) =
      .ok false) := by
  refine ⟨?_, ⟨rfl, rfl⟩, rfl, rfl⟩
  intro h v hu hn
  cases v with
  | undefined => exact absurd rfl hu
  | null => exact absurd rfl hn
  | bool b => rfl
  | num n => rfl
  | str s => rfl
  | ref r => rfl

/-- Witness for C6 at a concrete non-nullish primitive argument. -/
theorem isBound_characterization_witness :
    isBoundFn ([] : Heap) (.num 0) = .ok (jsTruthy (rawPropGet ([] : Heap) (.num 0) "__bound__") &&
      instanceOfBaseBound ([] : Heap) (rawPropGet ([] : Heap) (.num 0) "__bound__")) :=
  isBound_characterization.1 ([] : Heap) (.num 0) (by decide) (by decide)

/-! ### C7: `bindAndMap` -/

/-- C7: calling `bindAndMap` on any BaseBound, with any combination of
arguments and regardless of the debug flag, raises the BoundError
"Method not implemented.". -/
theorem bindAndMap_not_implemented (debug : Bool) (obj mapToOriginal : JSVal) (twoWay : Bool) :
    bindAndMap debug obj mapToOriginal twoWay = .error (.boundError "Method not implemented.") :=
  rfl

/-! ### C8: the `__bound__` back-reference after construction -/

/-- C8 (code bug): after a successful `BaseBound` construction over the
fresh object `{}` at reference 0 with debug off, `boundObject` (allocated
at reference 3) carries `__bound__` pointing at the owning instance
(reference 1) and the property is writable as claimed, but it is
enumerable: the property was created enumerable by the object literal
`{ __bound__: this }`, and `Object.defineProperty` with only
`value`/`writable` in the descriptor leaves the existing `enumerable: true`
in place, contrary to the code's own comment "Make __bound__
non-enumerable." -/
theorem boundField_enumerable :
    ((baseBoundCtor false (.ref 0) ([⟨[], false⟩] : Heap)).2 = .ok (1, 3))
  ∧ (lookupProp (((baseBoundCtor false (.ref 0) ([⟨[], false⟩] : Heap)).1)[3]?.getD
      (⟨[], false⟩ : JSObj)).props "__bound__" =
      some ⟨.ref 1, true, true⟩) := ⟨rfl, rfl⟩

/-! ### C10, C1, C3: the `SimpleBound` constructor always throws -/

/-- C10: for every argument and every heap, `new SimpleBound(obj)` raises
an exception before building any storage: the constructor invokes
`super()` with no prototype argument, so with debug enabled the non-object
BindingError is thrown, and with debug disabled the rebind check
dereferences the `__bound__` field of the `undefined` prototype and throws
a TypeError.  (The `fuel + 1` only says the call stack is not already
exhausted; the throw happens in the first frame.) -/
theorem simpleBound_construct_always_throws (fuel : Nat) (obj : JData) (h : Heap) :
    (simpleBoundNew (fuel + 1) true obj h).2 = .error (.boundError onlyObjectsMsg)
  ∧ (simpleBoundNew (fuel + 1) false obj h).2 =
      .error (.typeError "Cannot read properties of undefined (reading __bound__)") :=
  ⟨rfl, rfl⟩

/-- C1 (code bug): at the concrete prototype `{a: 1, b: {c: 2}}` the
`SimpleBound` constructor never reaches the JSON round trip or the per-key
loop: `super()` is called without the prototype argument and throws
(BoundError with debug on, TypeError from `isBound(undefined)` with debug
off), so no deep copy is made, no Binding and no child SimpleBound is ever
constructed, and no storage entry is produced. -/
theorem simpleBound_construct_nested_throws :
    (simpleBoundNew 5 true (.vObj [("a", .vNum 1), ("b", .vObj [("c", .vNum 2)])]) []).2 =
      .error (.boundError onlyObjectsMsg)
  ∧ (simpleBoundNew 5 false (.vObj [("a", .vNum 1), ("b", .vObj [("c", .vNum 2)])]) []).2 =
      .error (.typeError "Cannot read properties of undefined (reading __bound__)") :=
  ⟨rfl, rfl⟩

/-- C3 (code bug): at the concrete prototype `{x: 1}` construction already
throws (with either debug setting), so no `SimpleBound` instance exists on
which `bind` could be called, and the claimed post-`bind` synchronization
`target[k] = boundObject[k]` is unreachable. -/
theorem simpleBound_construct_flat_throws :
    (simpleBoundNew 7 true (.vObj [("x", .vNum 1)]) []).2 =
      .error (.boundError onlyObjectsMsg)
  ∧ (simpleBoundNew 7 false (.vObj [("x", .vNum 1)]) []).2 =
      .error (.typeError "Cannot read properties of undefined (reading __bound__)") :=
  ⟨rfl, rfl⟩

/-! ### C9: construction never touches pre-existing objects -/

/-- Whether a value, used as a property value, only references objects
inside the first `n` heap cells. -/
def valRefOK (n : Nat) : JSVal → Bool
  | .ref r => decide (r < n)
  | _ => true

/-- Heap well-formedness: every property value references only existing
heap cells (always true of heaps produced by real executions). -/
def heapWF (h : Heap) : Bool :=
  h.all fun o => o.props.all fun kp => valRefOK h.length kp.2.value

theorem lookupProp_mem {ps : List (String × JSProp)} {k : String} {p : JSProp}
    (hl : lookupProp ps k = some p) : (k, p) ∈ ps := by
  induction ps with
  | nil => cases hl
  | cons kp rest ih =>
    obtain ⟨k0, p0⟩ := kp
    simp only [lookupProp] at hl
    by_cases hk : k0 = k
    · subst hk
      rw [if_pos rfl] at hl
      cases hl
      exact List.mem_cons_self ..
    · rw [if_neg hk] at hl
      exact List.mem_cons_of_mem _ (ih hl)

theorem instanceOfBaseBound_append {h : Heap} {l : List JSObj} {v : JSVal}
    (hok : valRefOK h.length v = true) :
    instanceOfBaseBound (h ++ l) v = instanceOfBaseBound h v := by
  cases v with
  | ref r' =>
    have hr' : r' < h.length := of_decide_eq_true hok
    simp [instanceOfBaseBound, List.getElem?_append_left hr']
  | undefined => rfl
  | null => rfl
  | bool b => rfl
  | num n => rfl
  | str s => rfl

theorem isBoundFn_append {h : Heap} {l : List JSObj} {r : Nat}
    (hr : r < h.length) (hwf : heapWF h = true) :
    isBoundFn (h ++ l) (.ref r) = isBoundFn h (.ref r) := by
  have hget : (h ++ l)[r]? = h[r]? := List.getElem?_append_left hr
  have ho : h[r]? = some h[r] := List.getElem?_eq_getElem hr
  have hbv : rawPropGet (h ++ l) (.ref r) "__bound__" = rawPropGet h (.ref r) "__bound__" := by
    simp only [rawPropGet, hget]
  have hokg : valRefOK h.length (rawPropGet h (.ref r) "__bound__") = true := by
    simp only [rawPropGet, ho]
    cases hl : lookupProp h[r].props "__bound__" with
    | none => rfl
    | some p =>
      exact List.all_eq_true.mp (List.all_eq_true.mp hwf h[r] (List.getElem?_mem ho))
        ("__bound__", p) (lookupProp_mem hl)
  simp only [isBoundFn, heapGet, hbv]
  rw [instanceOfBaseBound_append hokg]

/-- C9: constructing a `SimpleBound` from a prototype leaves every
pre-existing heap object — in particular the prototype's backing object —
unchanged (no key added, removed or reassigned: the whole cell is
untouched), and no pre-existing object becomes bound:
`BaseBound.isBound` answers exactly as before the construction.  (Only
fresh cells for the instance, its `storage` and its `boundObject` are
allocated, and the constructor throws before any further mutation.) -/
theorem simpleBound_construct_frame (fuel : Nat) (debug : Bool) (obj : JData) (h : Heap)
    (r : Nat) (hr : r < h.length) (hwf : heapWF h = true) :
    (simpleBoundNew fuel debug obj h).1[r]? = h[r]?
  ∧ isBoundFn (simpleBoundNew fuel debug obj h).1 (.ref r) = isBoundFn h (.ref r) := by
  cases fuel with
  | zero => exact ⟨rfl, rfl⟩
  | succ fuel =>
    have hheap : (simpleBoundNew (fuel + 1) debug obj h).1 = baseBoundAlloc h := by
      cases debug <;> rfl
    rw [hheap]
    exact ⟨List.getElem?_append_left hr, isBoundFn_append hr hwf⟩

/-- Witness for C9 at a concrete one-object heap. -/
theorem simpleBound_construct_frame_witness :
    (simpleBoundNew 3 true (.vObj [("y", .vNum 2)]) ([⟨[("y", ⟨.num 1, true, true⟩)], false⟩] : Heap)).1[0]? =
      ([⟨[("y", ⟨.num 1, true, true⟩)], false⟩] : Heap)[0]?
  ∧ isBoundFn (simpleBoundNew 3 true (.vObj [("y", .vNum 2)])
        ([⟨[("y", ⟨.num 1, true, true⟩)], false⟩] : Heap)).1 (.ref 0) =
      isBoundFn ([⟨[("y", ⟨.num 1, true, true⟩)], false⟩] : Heap) (.ref 0) :=
  simpleBound_construct_frame 3 true (.vObj [("y", .vNum 2)])
    ([⟨[("y", ⟨.num 1, true, true⟩)], false⟩] : Heap) 0 (by decide) (by decide)
